import Mathlib

/-!
Verification of the memory-management core of the arceos exercise repository:
the `EarlyAllocator` dual-end bump allocator
(`modules/bump_allocator/src/lib.rs`) and the `sys_mmap` syscall path
(`exercises/sys_map/src/syscall.rs`).

Machine integers (`usize`) are modelled as `Nat` with explicit wrap-around
modulo `2 ^ 64` wherever the Rust arithmetic can overflow (release-mode
wrapping semantics).
-/

/-- The modulus of 64-bit machine arithmetic (`usize` on the target),
`2 ^ 64` written as a literal. -/
def W : Nat := 18446744073709551616

/-- Wrapping 64-bit addition. -/
def wadd (x y : Nat) : Nat := (x + y) % W

/-- Wrapping 64-bit subtraction (two's-complement behaviour of `usize`). -/
def wsub (x y : Nat) : Nat := (x % W + (W - y % W)) % W

/-- Wrapping 64-bit multiplication. -/
def wmul (x y : Nat) : Nat := (x * y) % W

/-- Error type of the `allocator` crate consumed by the bump allocator.
The source only ever constructs `NoMemory`. -/
inductive AllocError where
  | InvalidParam
  | MemoryOverlap
  | NoMemory
  | NotAllocated
deriving Repr, DecidableEq

/-- Result of an allocation request: an address, or an `AllocError`. -/
inductive AllocResult where
  | ok (addr : Nat)
  | err (e : AllocError)
deriving Repr, DecidableEq

/-- State of `EarlyAllocator<PAGE_SIZE>` from
`modules/bump_allocator/src/lib.rs`: fixed bounds `start`/`end_`, the
forward byte cursor `b_pos`, the backward page cursor `p_pos`, and the
count of outstanding byte allocations. -/
structure EarlyAllocator where
  start : Nat
  end_ : Nat
  b_pos : Nat
  p_pos : Nat
  count : Nat
deriving Repr, DecidableEq

/-- `EarlyAllocator::new()`: all fields zero. -/
def EarlyAllocator.new : EarlyAllocator :=
  { start := 0, end_ := 0, b_pos := 0, p_pos := 0, count := 0 }

/-- `BaseAllocator::init(start, size)`: `end = start + size`, byte cursor at
`start`, page cursor at `end`, no outstanding allocations. -/
def EarlyAllocator.init (start size : Nat) : EarlyAllocator :=
  { start := start % W
    end_ := wadd start size
    b_pos := start % W
    p_pos := wadd start size
    count := 0 }

/-- `ByteAllocator::alloc` (the layout's size field): if `b_pos + size`
exceeds `p_pos`, fail with `NoMemory`; otherwise return the old `b_pos`,
advance `b_pos` by `size`, and increment `count`. The mutated allocator is
returned alongside the result (unchanged on failure, as for `&mut self`). -/
def EarlyAllocator.alloc (a : EarlyAllocator) (size : Nat) :
    EarlyAllocator × AllocResult :=
  if wadd a.b_pos size > a.p_pos then
    (a, .err .NoMemory)
  else
    ({ a with b_pos := wadd a.b_pos size, count := wadd a.count 1 },
      .ok a.b_pos)

/-- `ByteAllocator::dealloc` (the layout's size field): unconditionally
subtract `size` from `b_pos` and decrement `count`; when `count` reaches
zero, reset `b_pos` to `start`. -/
def EarlyAllocator.dealloc (a : EarlyAllocator) (size : Nat) :
    EarlyAllocator :=
  let b := wsub a.b_pos size
  let c := wsub a.count 1
  if c = 0 then { a with b_pos := a.start % W, count := c }
  else { a with b_pos := b, count := c }

/-- `PageAllocator::alloc_pages(num_pages, _align_pow2)`: `size =
num_pages * PAGE_SIZE`; if `p_pos - size` falls below `b_pos`, fail with
`NoMemory`; otherwise move `p_pos` down by `size` and return the new
`p_pos`. The alignment argument is ignored by the source. -/
def EarlyAllocator.alloc_pages (pageSize : Nat) (a : EarlyAllocator)
    (num_pages : Nat) : EarlyAllocator × AllocResult :=
  if wsub a.p_pos (wmul num_pages pageSize) < a.b_pos then
    (a, .err .NoMemory)
  else
    ({ a with p_pos := wsub a.p_pos (wmul num_pages pageSize) },
      .ok (wsub a.p_pos (wmul num_pages pageSize)))

/-- `ByteAllocator::total_bytes`. -/
def EarlyAllocator.total_bytes (a : EarlyAllocator) : Nat :=
  wsub a.end_ a.start

/-- `ByteAllocator::used_bytes`. -/
def EarlyAllocator.used_bytes (a : EarlyAllocator) : Nat :=
  wsub a.b_pos a.start

/-- `ByteAllocator::available_bytes`. -/
def EarlyAllocator.available_bytes (a : EarlyAllocator) : Nat :=
  wsub a.p_pos a.b_pos

/-- The documented allocator invariant `start ≤ b_pos ≤ p_pos ≤ end`. -/
def EarlyAllocator.Inv (a : EarlyAllocator) : Prop :=
  a.start ≤ a.b_pos ∧ a.b_pos ≤ a.p_pos ∧ a.p_pos ≤ a.end_

instance (a : EarlyAllocator) : Decidable a.Inv := by
  unfold EarlyAllocator.Inv
  infer_instance

/-- All fields of the allocator are `usize` values, hence below `2 ^ 64`.
Every state of the Rust program satisfies this. -/
def EarlyAllocator.WF (a : EarlyAllocator) : Prop :=
  a.start < W ∧ a.end_ < W ∧ a.b_pos < W ∧ a.p_pos < W ∧ a.count < W

instance (a : EarlyAllocator) : Decidable a.WF := by
  unfold EarlyAllocator.WF
  infer_instance

/-! Helper lemmas for non-wrapping machine arithmetic. -/

theorem wadd_of_lt {x y : Nat} (h : x + y < W) : wadd x y = x + y := by
  simp [wadd, W] at *
  omega

theorem wsub_of_le {x y : Nat} (hx : x < W) (hy : y ≤ x) : wsub x y = x - y := by
  simp [wsub, W] at *
  omega

theorem wmul_of_lt {x y : Nat} (h : x * y < W) : wmul x y = x * y := by
  simp [wmul, W] at *
  omega

/-! Embedding of `exercises/sys_map/src/syscall.rs`. -/

/-- 4K page size used by `align_down_4k` / `align_up_4k`. -/
def PAGE_SIZE_4K : Nat := 0x1000

/-- `memory_addr::align_down_4k`: clear the low 12 bits. -/
def align_down_4k (v : Nat) : Nat := v - v % PAGE_SIZE_4K

/-- `memory_addr::align_up_4k`: `(v + 0xfff) & !0xfff` with `usize`
wrap-around on the addition. -/
def align_up_4k (v : Nat) : Nat := align_down_4k ((v + 0xfff) % W)

/-- Linux error codes used by the syscall layer (`axerrno::LinuxError`). -/
def ENOMEM : Int := 12

/-- `axerrno::LinuxError::EBADF` code. -/
def EBADF : Int := 9

/-- `axerrno::LinuxError::EIO` code. -/
def EIO_errno : Int := 5

/-- `axhal::paging::MappingFlags` restricted to the flags the mmap path
uses: READ, WRITE, EXECUTE, USER. -/
structure MappingFlags where
  read : Bool
  write : Bool
  execute : Bool
  user : Bool
deriving Repr, DecidableEq

/-- `impl From<MmapProt> for MappingFlags`: start from USER, then add READ
if bit 0 of the protection bitmask is set, WRITE if bit 1, EXECUTE if
bit 2 (`MmapProt::from_bits_truncate` discards all other bits, which the
bit tests already ignore). `prot` is the bit pattern of the `i32`. -/
def mmapProtToFlags (prot : Nat) : MappingFlags :=
  { read := prot.testBit 0
    write := prot.testBit 1
    execute := prot.testBit 2
    user := true }

/-- Modelled from the spec: the file-like object behind a descriptor
(`arceos_posix_api::get_file_like(fd)?.read(&mut buf)` is outside the
given sources). `content` is the byte sequence the descriptor holds;
`readFails` marks a descriptor whose read operation reports an I/O
error. -/
structure FileLike where
  content : List Nat
  readFails : Bool
deriving Repr, DecidableEq

/-- Modelled from the spec: `read(buffer) -> bytes_read | IOError` on a
zero-initialized buffer of exactly `len` bytes; a short read leaves the
remainder of the buffer at its initial value (zero). Returns the buffer
contents after the read, or `none` on a read error. -/
def fileReadInto (f : FileLike) (len : Nat) : Option (List Nat) :=
  if f.readFails then none
  else some (f.content.take len ++ List.replicate (len - f.content.length) 0)

/-- Modelled from the spec: the per-task address space handle
(`axmm::AddrSpace` is outside the given sources). It owns the range
`[base, base + asize)`, a list of committed mappings
`(vaddr, size, flags)` newest first, and a write log `(vaddr, bytes)`
newest first; memory that no log entry covers reads as zero (mappings are
committed with eager population, i.e. zero-filled). -/
structure AddrSpace where
  base : Nat
  asize : Nat
  committed : List (Nat × Nat × MappingFlags)
  mem : List (Nat × List Nat)
deriving Repr, DecidableEq

/-- Byte at address `x` given a write log (newest entry first); addresses
outside every entry read as zero. -/
def lookupMem : List (Nat × List Nat) → Nat → Nat
  | [], _ => 0
  | (a, bs) :: rest, x =>
      if a ≤ x ∧ x < a + bs.length then bs.getD (x - a) 0
      else lookupMem rest x

/-- Byte of the address space's memory at address `x`. -/
def AddrSpace.byteAt (sp : AddrSpace) (x : Nat) : Nat :=
  lookupMem sp.mem x

/-- Modelled from the spec: committing a mapping
(`uspace.map_alloc(vaddr, size, flags, true)`) records the mapping and,
because population is requested eagerly, zero-fills its range. -/
def AddrSpace.commit (sp : AddrSpace) (vaddr size : Nat)
    (flags : MappingFlags) : AddrSpace :=
  { sp with
    committed := (vaddr, size, flags) :: sp.committed
    mem := (vaddr, List.replicate size 0) :: sp.mem }

/-- Modelled from the spec: `uspace.write(vaddr, &buf)` appends the bytes
to the write log. -/
def AddrSpace.writeBytes (sp : AddrSpace) (vaddr : Nat) (buf : List Nat) :
    AddrSpace :=
  { sp with mem := (vaddr, buf) :: sp.mem }

/-- Oracles for the collaborator operations whose outcomes `sys_mmap`
branches on: free-area search, mapping-commit success, descriptor
resolution, and raw-write success. Each is an arbitrary function, so the
theorems quantify over every collaborator behaviour. -/
structure Oracles where
  findFree : Nat → Nat → Nat → Nat → Option Nat
  mapAllocOk : Nat → Nat → MappingFlags → Bool
  resolveFd : Int → Option FileLike
  writeOk : Nat → List Nat → Bool

/-- Result of a `sys_mmap` call: the `isize` return value and the
address space after the call. -/
structure MmapResult where
  ret : Int
  space : AddrSpace
deriving Repr, DecidableEq

/-- Reinterpretation of a `usize` value as `isize`
(`vaddr.as_usize() as isize`). -/
def toISize (v : Nat) : Int :=
  if v % W < W / 2 then ((v % W : Nat) : Int)
  else ((v % W : Nat) : Int) - (W : Int)

/-- `sys_mmap(addr, length, prot, _flags, fd, _offset)` from
`exercises/sys_map/src/syscall.rs`, stage by stage:
search start `= align_down_4k(addr + 0x10_0000)`, size
`= align_up_4k(length)`; `find_free_area(start, size,
range(base, base + asize))`, `none` giving `-ENOMEM`; `map_alloc(vaddr,
size, prot.into(), true)`, failure giving `-ENOMEM`; `get_file_like(fd)`,
failure giving `-EBADF`; `file.read(&mut buf)` on the zeroed
`length`-byte buffer, failure giving `-EIO`; `uspace.write(vaddr, &buf)`,
failure giving `-EIO`; success returning `vaddr` cast to `isize`.
`_flags` and `_offset` are unused by the source and omitted. -/
def sys_mmap (O : Oracles) (sp : AddrSpace) (addr length prot : Nat)
    (fd : Int) : MmapResult :=
  let start := align_down_4k ((addr + 0x100000) % W)
  let size := align_up_4k length
  match O.findFree start size sp.base sp.asize with
  | none => ⟨-ENOMEM, sp⟩
  | some vaddr =>
    let flags := mmapProtToFlags prot
    if O.mapAllocOk vaddr size flags then
      let sp1 := sp.commit vaddr size flags
      match O.resolveFd fd with
      | none => ⟨-EBADF, sp1⟩
      | some f =>
        match fileReadInto f length with
        | none => ⟨-EIO_errno, sp1⟩
        | some buf =>
          if O.writeOk vaddr buf then
            ⟨toISize vaddr, sp1.writeBytes vaddr buf⟩
          else ⟨-EIO_errno, sp1⟩
    else ⟨-ENOMEM, sp⟩

/-! Concrete fixtures used by witnesses and counterexamples. -/

/-- A collaborator instance: the search always finds the hole `0x2000`,
mapping commits and raw writes succeed, and descriptor `3` resolves to a
readable file holding the two bytes `[7, 9]`. -/
def oA : Oracles :=
  { findFree := fun _ _ _ _ => some 0x2000
    mapAllocOk := fun _ _ _ => true
    resolveFd := fun fd => if fd = 3 then some ⟨[7, 9], false⟩ else none
    writeOk := fun _ _ => true }

/-- A collaborator instance whose descriptor resolution always fails. -/
def oBadFd : Oracles :=
  { oA with resolveFd := fun _ => none }

/-- A collaborator instance whose free-area search never finds a hole. -/
def oNoArea : Oracles :=
  { oA with findFree := fun _ _ _ _ => none }

/-- An empty address space `[0x1000, 0x101000)` with nothing committed. -/
def spA : AddrSpace :=
  { base := 0x1000, asize := 0x100000, committed := [], mem := [] }

/-! Theorems. -/

/-- Exact behaviour of `alloc_pages` when the product `n * PAGE_SIZE`
does not wrap past `p_pos`: failure with `NoMemory` exactly when the
request exceeds the gap `p_pos - b_pos`, and otherwise the cursor moves
down by the request. -/
theorem alloc_pages_spec (a : EarlyAllocator) (ps n : Nat)
    (h2 : a.p_pos < W) (h3 : n * ps ≤ a.p_pos) :
    (n * ps > a.p_pos - a.b_pos →
      EarlyAllocator.alloc_pages ps a n = (a, .err .NoMemory)) ∧
    (n * ps ≤ a.p_pos - a.b_pos → a.b_pos ≤ a.p_pos →
      EarlyAllocator.alloc_pages ps a n =
        ({ a with p_pos := a.p_pos - n * ps }, .ok (a.p_pos - n * ps))) := by
  have hm : wmul n ps = n * ps := wmul_of_lt (lt_of_le_of_lt h3 h2)
  have hs : wsub a.p_pos (n * ps) = a.p_pos - n * ps := wsub_of_le h2 h3
  constructor
  · intro hgt
    have hc : wsub a.p_pos (wmul n ps) < a.b_pos := by rw [hm, hs]; omega
    simp only [EarlyAllocator.alloc_pages, if_pos hc]
  · intro hle hbp
    have hc : ¬ wsub a.p_pos (wmul n ps) < a.b_pos := by rw [hm, hs]; omega
    simp only [EarlyAllocator.alloc_pages, if_neg hc, hm, hs]
    rw [if_neg (by omega)]

/-- C1: the claim as stated is false: `dealloc` with an arbitrary layout
does not preserve the invariant. After `init(100, 100)`, `alloc(10)`,
`alloc(5)` the invariant holds, but `dealloc` of size 50 (more than the
15 currently allocated bytes) drives `b_pos` to 65, below `start = 100`. -/
theorem c1_invariant_counterexample :
    ((((EarlyAllocator.init 100 100).alloc 10).1.alloc 5).1).Inv ∧
    ¬ (((((EarlyAllocator.init 100 100).alloc 10).1.alloc 5).1.dealloc 50)).Inv := by
  decide

/-- C1 (amended): after `init(start, size)` with `start + size < 2^64` the
invariant `start ≤ b_pos ≤ p_pos ≤ end` holds; it is preserved by `alloc`
whenever `b_pos + size` does not wrap, by `dealloc` whenever the freed
size is at most the currently allocated `b_pos - start` bytes, and by
`alloc_pages` whenever `n * PAGE_SIZE` does not wrap below `p_pos`; and
`NoMemory` is the only error either allocation operation ever returns. -/
theorem c1_invariant_amended :
    (∀ s z : Nat, s + z < W → (EarlyAllocator.init s z).Inv) ∧
    (∀ (a : EarlyAllocator) (size : Nat), a.Inv → a.b_pos + size < W →
      ((a.alloc size).1).Inv) ∧
    (∀ (a : EarlyAllocator) (size : Nat), a.Inv → a.end_ < W →
      size ≤ a.b_pos - a.start → ((a.dealloc size)).Inv) ∧
    (∀ (a : EarlyAllocator) (ps n : Nat), a.Inv → a.end_ < W →
      n * ps ≤ a.p_pos → ((EarlyAllocator.alloc_pages ps a n).1).Inv) ∧
    (∀ (a : EarlyAllocator) (size : Nat) (e : AllocError),
      (a.alloc size).2 = .err e → e = .NoMemory) ∧
    (∀ (ps : Nat) (a : EarlyAllocator) (n : Nat) (e : AllocError),
      (EarlyAllocator.alloc_pages ps a n).2 = .err e → e = .NoMemory) := by
  refine ⟨?_, ?_, ?_, ?_, ?_, ?_⟩
  · intro s z h
    simp only [EarlyAllocator.init, EarlyAllocator.Inv, wadd, W] at *
    omega
  · intro a size hInv hlt
    obtain ⟨h1, h2, h3⟩ := hInv
    have hw : wadd a.b_pos size = a.b_pos + size := wadd_of_lt hlt
    unfold EarlyAllocator.alloc
    split
    · exact ⟨h1, h2, h3⟩
    · rename_i hc
      rw [hw] at hc
      simp only [EarlyAllocator.Inv]
      rw [hw]
      omega
  · intro a size hInv hend hsz
    obtain ⟨h1, h2, h3⟩ := hInv
    have hb : a.b_pos < W := by omega
    have hszb : size ≤ a.b_pos := by omega
    have hw : wsub a.b_pos size = a.b_pos - size := wsub_of_le hb hszb
    have hstart : a.start % W = a.start := Nat.mod_eq_of_lt (by omega)
    unfold EarlyAllocator.dealloc
    simp only [hw, hstart]
    split
    · simp only [EarlyAllocator.Inv]
      omega
    · simp only [EarlyAllocator.Inv]
      omega
  · intro a ps n hInv hend hle
    obtain ⟨h1, h2, h3⟩ := hInv
    have hp : a.p_pos < W := by omega
    rcases Nat.lt_or_ge (a.p_pos - a.b_pos) (n * ps) with hgt | hsmall
    · rw [(alloc_pages_spec a ps n hp hle).1 hgt]
      exact ⟨h1, h2, h3⟩
    · rw [(alloc_pages_spec a ps n hp hle).2 hsmall h2]
      simp only [EarlyAllocator.Inv]
      omega
  · intro a size e h
    unfold EarlyAllocator.alloc at h
    split at h
    · simp only [AllocResult.err.injEq] at h
      exact h.symm
    · simp at h
  · intro ps a n e h
    unfold EarlyAllocator.alloc_pages at h
    split at h
    · simp only [AllocResult.err.injEq] at h
      exact h.symm
    · simp at h

/-- C1 (witness): the amended invariant preservation evaluated on the
concrete region `[0, 0x10000)`: it holds after `init`, after an
`alloc(100)`, after a matching `dealloc`, and after `alloc_pages(2)`. -/
theorem c1_invariant_witness :
    (EarlyAllocator.init 0 65536).Inv ∧
    (((EarlyAllocator.init 0 65536).alloc 100).1).Inv ∧
    ((((EarlyAllocator.init 0 65536).alloc 100).1).dealloc 100).Inv ∧
    ((EarlyAllocator.alloc_pages 4096 (EarlyAllocator.init 0 65536) 2).1).Inv := by
  refine ⟨c1_invariant_amended.1 0 65536 (by decide),
    c1_invariant_amended.2.1 (EarlyAllocator.init 0 65536) 100 (by decide)
      (by decide),
    c1_invariant_amended.2.2.1 (((EarlyAllocator.init 0 65536).alloc 100).1)
      100 (by decide) (by decide) (by decide),
    c1_invariant_amended.2.2.2.1 (EarlyAllocator.init 0 65536) 4096 2
      (by decide) (by decide) (by decide)⟩

/-- C5: the claim as stated is false. At byte cursor `2^64 - 10` and page
cursor `2^64 - 5` (a state satisfying the invariant), a request of 20
bytes exceeds the gap of 5, yet `b_pos + size` wraps around `2^64` and
the comparison `b_pos + size > p_pos` is evaluated on the wrapped value
10, so `alloc` succeeds instead of failing with `NoMemory`. -/
theorem c5_alloc_counterexample :
    (⟨0, W - 1, W - 10, W - 5, 0⟩ : EarlyAllocator).Inv ∧
    20 > (⟨0, W - 1, W - 10, W - 5, 0⟩ : EarlyAllocator).p_pos -
      (⟨0, W - 1, W - 10, W - 5, 0⟩ : EarlyAllocator).b_pos ∧
    ((⟨0, W - 1, W - 10, W - 5, 0⟩ : EarlyAllocator).alloc 20).2 =
      .ok (W - 10) := by
  decide

/-- C5 (amended): for every allocator state with `b_pos ≤ p_pos` in which
`b_pos + size` and `count + 1` do not wrap past `2^64`: whenever the size
exceeds the gap `p_pos - b_pos`, `alloc` fails with `NoMemory` and
leaves the whole state unchanged; otherwise it succeeds, returns the old
`b_pos`, advances `b_pos` by `size`, and increments `count`. -/
theorem c5_alloc_amended : ∀ (a : EarlyAllocator) (size : Nat),
    a.b_pos ≤ a.p_pos → a.b_pos + size < W → a.count + 1 < W →
    (size > a.p_pos - a.b_pos → a.alloc size = (a, .err .NoMemory)) ∧
    (size ≤ a.p_pos - a.b_pos →
      a.alloc size =
        ({ a with b_pos := a.b_pos + size, count := a.count + 1 },
          .ok a.b_pos)) := by
  intro a size h1 h2 h3
  have hwb : wadd a.b_pos size = a.b_pos + size := wadd_of_lt h2
  have hwc : wadd a.count 1 = a.count + 1 := wadd_of_lt h3
  constructor
  · intro hgt
    have hc : wadd a.b_pos size > a.p_pos := by rw [hwb]; omega
    unfold EarlyAllocator.alloc
    rw [if_pos hc]
  · intro hle
    have hc : ¬ wadd a.b_pos size > a.p_pos := by rw [hwb]; omega
    unfold EarlyAllocator.alloc
    rw [if_neg hc, hwb, hwc]

/-- C5 (witness): the amended statement evaluated on the fresh region
`[0, 0x10000)` with a 100-byte request: `alloc` succeeds, returns
address 0, and moves the byte cursor to 100 with one outstanding
allocation. -/
theorem c5_alloc_witness :
    (EarlyAllocator.init 0 65536).alloc 100 =
      ({ start := 0, end_ := 65536, b_pos := 100, p_pos := 65536,
          count := 1 }, .ok 0) := by
  have h := (c5_alloc_amended (EarlyAllocator.init 0 65536) 100
    (by decide) (by decide) (by decide)).2 (by decide)
  exact h.trans (by decide)

/-- C6: the claim as stated is false, in two ways. First, on the fresh
region `[0, 0x10000)` a request of 17 pages (`17 * 0x1000` bytes, more
than the `0x10000`-byte gap) makes `p_pos - size` wrap below zero, the
guard passes on the wrapped value, and `alloc_pages` succeeds returning
the out-of-region address `2^64 - 0x1000` instead of failing with
`NoMemory`. Second, two successive successful calls with `n = 0` return
the same address `0x10000` twice, so successive successful addresses are
not strictly decreasing. -/
theorem c6_pages_counterexample :
    (17 * 0x1000 > (EarlyAllocator.init 0 0x10000).p_pos -
        (EarlyAllocator.init 0 0x10000).b_pos ∧
      (EarlyAllocator.alloc_pages 0x1000 (EarlyAllocator.init 0 0x10000)
          17).2 = .ok (W - 0x1000)) ∧
    ((EarlyAllocator.alloc_pages 0x1000 (EarlyAllocator.init 0 0x10000)
        0).2 = .ok 0x10000 ∧
      (EarlyAllocator.alloc_pages 0x1000
          ((EarlyAllocator.alloc_pages 0x1000
            (EarlyAllocator.init 0 0x10000) 0).1) 0).2 = .ok 0x10000) := by
  decide

/-- C6 (amended): for every state with `b_pos ≤ p_pos < 2^64` and every
page count `n` with `n * PAGE_SIZE ≤ p_pos` (no wrap-around):
`alloc_pages(n)` fails with `NoMemory` whenever `n * PAGE_SIZE` exceeds
the gap `p_pos - b_pos`; otherwise it succeeds at address
`p_pos - n * PAGE_SIZE`, which lies at or above `b_pos` and whose page
range ends at the old `p_pos`, so it never overlaps the byte region
`[start, b_pos)`; and two successive successful calls with positive page
counts return strictly decreasing addresses, both at or above `b_pos`. -/
theorem c6_pages_amended : ∀ (a : EarlyAllocator) (ps n : Nat),
    a.b_pos ≤ a.p_pos → a.p_pos < W → n * ps ≤ a.p_pos →
    (n * ps > a.p_pos - a.b_pos →
      EarlyAllocator.alloc_pages ps a n = (a, .err .NoMemory)) ∧
    (n * ps ≤ a.p_pos - a.b_pos →
      EarlyAllocator.alloc_pages ps a n =
        ({ a with p_pos := a.p_pos - n * ps }, .ok (a.p_pos - n * ps)) ∧
      a.b_pos ≤ a.p_pos - n * ps ∧
      (a.p_pos - n * ps) + n * ps = a.p_pos) ∧
    (∀ m : Nat, 1 ≤ n → 1 ≤ m → 1 ≤ ps →
      n * ps ≤ a.p_pos - a.b_pos →
      m * ps ≤ (a.p_pos - n * ps) - a.b_pos →
      (EarlyAllocator.alloc_pages ps
          ((EarlyAllocator.alloc_pages ps a n).1) m).2 =
        .ok ((a.p_pos - n * ps) - m * ps) ∧
      (a.p_pos - n * ps) - m * ps < a.p_pos - n * ps ∧
      a.b_pos ≤ (a.p_pos - n * ps) - m * ps) := by
  intro a ps n h1 h2 h3
  refine ⟨fun hgt => (alloc_pages_spec a ps n h2 h3).1 hgt, ?_, ?_⟩
  · intro hle
    exact ⟨(alloc_pages_spec a ps n h2 h3).2 hle h1, by omega, by omega⟩
  · intro m hn hm hps hle hle2
    have hnp : 1 * 1 ≤ n * ps := Nat.mul_le_mul hn hps
    have hmp : 1 * 1 ≤ m * ps := Nat.mul_le_mul hm hps
    have e1 := (alloc_pages_spec a ps n h2 h3).2 hle h1
    rw [e1]
    have e2 := (alloc_pages_spec
      ({ a with p_pos := a.p_pos - n * ps }) ps m (by dsimp only; omega)
      (by dsimp only; omega)).2 (by dsimp only; omega) (by dsimp only; omega)
    rw [e2]
    refine ⟨rfl, by omega, by omega⟩

/-- C6 (witness): the amended statement evaluated on the fresh region
`[0, 0x10000)`: `alloc_pages(2)` succeeds at `0xE000`; after an
`alloc(100)` has moved the byte cursor to 100, `alloc_pages(16)` (whose
`0x10000` bytes exceed the gap `0x10000 - 100`) fails with `NoMemory`;
and a following `alloc_pages(1)` after the first success returns the
strictly smaller address `0xD000`. -/
theorem c6_pages_witness :
    EarlyAllocator.alloc_pages 0x1000 (EarlyAllocator.init 0 0x10000) 2 =
      ({ start := 0, end_ := 65536, b_pos := 0, p_pos := 0xE000,
          count := 0 }, .ok 0xE000) ∧
    EarlyAllocator.alloc_pages 0x1000
        (((EarlyAllocator.init 0 0x10000).alloc 100).1) 16 =
      ((((EarlyAllocator.init 0 0x10000).alloc 100).1),
        .err .NoMemory) ∧
    (EarlyAllocator.alloc_pages 0x1000
        ((EarlyAllocator.alloc_pages 0x1000
          (EarlyAllocator.init 0 0x10000) 2).1) 1).2 = .ok 0xD000 := by
  have h := c6_pages_amended (EarlyAllocator.init 0 0x10000) 0x1000 2
    (by decide) (by decide) (by decide)
  have h16 := c6_pages_amended
    (((EarlyAllocator.init 0 0x10000).alloc 100).1) 0x1000 16
    (by decide) (by decide) (by decide)
  refine ⟨((h.2.1 (by decide)).1).trans (by decide),
    h16.1 (by decide), ?_⟩
  have h2 := (h.2.2 1 (by decide) (by decide) (by decide) (by decide)
    (by decide)).1
  exact h2.trans (by decide)

/-- C7: the concrete scenario on region `[0, 0x10000)` with
`PAGE_SIZE = 0x1000`: `alloc(100)` returns address 0; `alloc(50)` returns
address 100; `alloc_pages(2)` returns address `0xE000`; `dealloc(100,
50)` leaves the byte cursor at 100 with one outstanding allocation;
`dealloc(0, 100)` leaves zero outstanding allocations and resets the byte
cursor to 0. -/
theorem c7_concrete_scenario :
    (((EarlyAllocator.init 0 0x10000).alloc 100).2 = .ok 0 ∧
      ((((EarlyAllocator.init 0 0x10000).alloc 100).1).alloc 50).2 =
        .ok 100) ∧
    (EarlyAllocator.alloc_pages 0x1000
        (((((EarlyAllocator.init 0 0x10000).alloc 100).1).alloc 50).1)
        2).2 = .ok 0xE000 ∧
    ((EarlyAllocator.alloc_pages 0x1000
        (((((EarlyAllocator.init 0 0x10000).alloc 100).1).alloc 50).1)
        2).1.dealloc 50).b_pos = 100 ∧
    ((EarlyAllocator.alloc_pages 0x1000
        (((((EarlyAllocator.init 0 0x10000).alloc 100).1).alloc 50).1)
        2).1.dealloc 50).count = 1 ∧
    (((EarlyAllocator.alloc_pages 0x1000
        (((((EarlyAllocator.init 0 0x10000).alloc 100).1).alloc 50).1)
        2).1.dealloc 50).dealloc 100).count = 0 ∧
    (((EarlyAllocator.alloc_pages 0x1000
        (((((EarlyAllocator.init 0 0x10000).alloc 100).1).alloc 50).1)
        2).1.dealloc 50).dealloc 100).b_pos = 0 := by
  decide

/-- C10: the claim as stated is false. On the fresh region `[0, 0x10000)`
(which satisfies the invariant) with `PAGE_SIZE = 0x1000`, the page count
`n = 2^52` makes the product `n * PAGE_SIZE = 2^64` wrap to 0, the guard
passes, and `alloc_pages` succeeds returning `addr = 0x10000`, yet
`addr + n * PAGE_SIZE ≠ p_pos`: the arithmetic wrapped on a path that
returns success. -/
theorem c10_wrap_counterexample :
    (EarlyAllocator.init 0 0x10000).Inv ∧
    (EarlyAllocator.alloc_pages 0x1000 (EarlyAllocator.init 0 0x10000)
        4503599627370496).2 = .ok 0x10000 ∧
    0x10000 + 4503599627370496 * 0x1000 ≠
      (EarlyAllocator.init 0 0x10000).p_pos := by
  decide

/-- C10 (amended): for every allocator state satisfying the invariant
with `p_pos < 2^64` and every page count `n` with `n * PAGE_SIZE ≤
p_pos`, the arithmetic in `alloc_pages` does not wrap, and whenever it
succeeds the returned address satisfies `b_pos ≤ addr` and
`addr + n * PAGE_SIZE` equals the old `p_pos`. -/
theorem c10_no_wrap_amended : ∀ (a : EarlyAllocator) (ps n : Nat),
    a.Inv → a.p_pos < W → n * ps ≤ a.p_pos →
    ∀ (a' : EarlyAllocator) (addr : Nat),
      EarlyAllocator.alloc_pages ps a n = (a', .ok addr) →
      a.b_pos ≤ addr ∧ addr + n * ps = a.p_pos := by
  intro a ps n hInv h2 h3 a' addr heq
  obtain ⟨h1, hbp, hpe⟩ := hInv
  rcases Nat.lt_or_ge (a.p_pos - a.b_pos) (n * ps) with hgt | hsmall
  · rw [(alloc_pages_spec a ps n h2 h3).1 hgt] at heq
    simp only [Prod.mk.injEq] at heq
    exact absurd heq.2 (by simp)
  · rw [(alloc_pages_spec a ps n h2 h3).2 hsmall hbp] at heq
    simp only [Prod.mk.injEq, AllocResult.ok.injEq] at heq
    omega

/-- C10 (witness): the amended statement evaluated on the fresh region
`[0, 0x10000)` with `alloc_pages(2)`, which succeeds at `0xE000`:
`b_pos = 0 ≤ 0xE000` and `0xE000 + 2 * 0x1000 = 0x10000 = p_pos`. -/
theorem c10_no_wrap_witness :
    (0 : Nat) ≤ 0xE000 ∧ 0xE000 + 2 * 0x1000 =
      (EarlyAllocator.init 0 0x10000).p_pos := by
  have h := c10_no_wrap_amended (EarlyAllocator.init 0 0x10000) 0x1000 2
    (by decide) (by decide) (by decide)
    ({ start := 0, end_ := 65536, b_pos := 0, p_pos := 0xE000, count := 0 })
    0xE000 (by decide)
  exact ⟨h.1, h.2⟩

/-! Helper lemmas for the mmap path. -/

/-- `usize → isize` reinterpretation is the identity below `2^63`. -/
theorem toISize_of_lt {v : Nat} (h : v < W / 2) : toISize v = (v : Int) := by
  have hvW : v < W := by
    have : W / 2 < W := by simp [W]
    omega
  simp [toISize, Nat.mod_eq_of_lt hvW, h]

/-- Rounding up to a page never decreases a length that stays below the
`usize` modulus. -/
theorem le_align_up_4k {n : Nat} (h : n + 0xfff < W) : n ≤ align_up_4k n := by
  simp only [align_up_4k, align_down_4k, PAGE_SIZE_4K, W] at *
  omega

/-- Every `getD` of a zero-replicate list is zero. -/
theorem getD_replicate_zero : ∀ (k j : Nat),
    (List.replicate k (0 : Nat)).getD j 0 = 0 := by
  intro k
  induction k with
  | zero => intro j; simp [List.getD]
  | succ k ih =>
    intro j
    cases j with
    | zero => simp [List.replicate, List.getD]
    | succ j =>
      rw [List.replicate, List.getD_cons_succ]
      exact ih j

/-- After a successful free-area search and mapping commit, the head of
the committed-mapping list is the new mapping with the translated
permission flags, on every subsequent branch of `sys_mmap`. -/
theorem sys_mmap_committed_head (O : Oracles) (sp : AddrSpace)
    (addr length prot : Nat) (fd : Int) (v : Nat)
    (hv : O.findFree (align_down_4k ((addr + 0x100000) % W))
      (align_up_4k length) sp.base sp.asize = some v)
    (hma : O.mapAllocOk v (align_up_4k length) (mmapProtToFlags prot) = true) :
    (sys_mmap O sp addr length prot fd).space.committed.head? =
      some (v, align_up_4k length, mmapProtToFlags prot) := by
  simp only [sys_mmap, hv, hma, if_true]
  cases hfd : O.resolveFd fd with
  | none => simp [AddrSpace.commit]
  | some f =>
    cases hread : fileReadInto f length with
    | none => simp [hread, AddrSpace.commit]
    | some buf =>
      cases hw : O.writeOk v buf <;>
        simp [hread, hw, AddrSpace.commit, AddrSpace.writeBytes]

/-- C9: the free-area search of `sys_mmap` starts at the page-aligned
hint address plus the fixed bias `0x100000` (the source aligns after
adding, which coincides because the bias is a multiple of the page
size), requests the page-rounded-up length, searches within the full
range `[base, base + size)` of the address space, and yields `-ENOMEM`
with an unchanged address space when no hole is found. -/
theorem c9_search_bias : ∀ (O : Oracles) (sp : AddrSpace)
    (addr length prot : Nat) (fd : Int),
    addr < W →
    align_down_4k ((addr + 0x100000) % W) =
      (align_down_4k addr + 0x100000) % W ∧
    (O.findFree ((align_down_4k addr + 0x100000) % W) (align_up_4k length)
        sp.base sp.asize = none →
      (sys_mmap O sp addr length prot fd).ret = -ENOMEM ∧
      (sys_mmap O sp addr length prot fd).space = sp) := by
  intro O sp addr length prot fd haddr
  have heq : align_down_4k ((addr + 0x100000) % W) =
      (align_down_4k addr + 0x100000) % W := by
    simp only [align_down_4k, PAGE_SIZE_4K, W] at *
    omega
  refine ⟨heq, fun hnone => ?_⟩
  rw [show (sys_mmap O sp addr length prot fd) = ⟨-ENOMEM, sp⟩ by
    simp only [sys_mmap, heq, hnone]]
  exact ⟨rfl, rfl⟩

/-- C9 (witness): with a collaborator whose search finds no hole,
`sys_mmap` on the concrete empty address space returns `-ENOMEM` and
leaves the space unchanged. -/
theorem c9_search_bias_witness :
    (sys_mmap oNoArea spA 0 5 3 3).ret = -ENOMEM ∧
    (sys_mmap oNoArea spA 0 5 3 3).space = spA := by
  exact (c9_search_bias oNoArea spA 0 5 3 3 (by decide)).2 rfl

/-- C8: for every protection bitmask, the permission set `sys_mmap`
commits contains the readable permission iff bit 0 is set, the writable
permission iff bit 1 is set, the executable permission iff bit 2 is set,
and always contains the user-accessible flag. -/
theorem c8_prot_flags : ∀ (O : Oracles) (sp : AddrSpace)
    (addr length prot : Nat) (fd : Int) (v : Nat),
    O.findFree (align_down_4k ((addr + 0x100000) % W)) (align_up_4k length)
      sp.base sp.asize = some v →
    O.mapAllocOk v (align_up_4k length) (mmapProtToFlags prot) = true →
    ∃ fl : MappingFlags,
      (sys_mmap O sp addr length prot fd).space.committed.head? =
        some (v, align_up_4k length, fl) ∧
      fl.read = prot.testBit 0 ∧ fl.write = prot.testBit 1 ∧
      fl.execute = prot.testBit 2 ∧ fl.user = true := by
  intro O sp addr length prot fd v hv hma
  exact ⟨mmapProtToFlags prot,
    sys_mmap_committed_head O sp addr length prot fd v hv hma,
    rfl, rfl, rfl, rfl⟩

/-- C8 (witness): with protection bitmask `0b011` the committed mapping
is readable, writable, not executable, and user-accessible. -/
theorem c8_prot_flags_witness :
    (sys_mmap oA spA 0 5 3 3).space.committed.head? =
      some (0x2000, 0x1000,
        { read := true, write := true, execute := false, user := true }) := by
  obtain ⟨fl, hhead, hr, hw, hx, hu⟩ :=
    c8_prot_flags oA spA 0 5 3 3 0x2000 rfl rfl
  cases fl
  simp only at hr hw hx hu
  rw [show Nat.testBit 3 0 = true from by decide] at hr
  rw [show Nat.testBit 3 1 = true from by decide] at hw
  rw [show Nat.testBit 3 2 = false from by decide] at hx
  subst hr hw hx hu
  exact hhead.trans (by decide)

/-- C4: whenever the mapping commit succeeded but a later stage fails —
descriptor resolution (`-EBADF`), file read (`-EIO`), or memory write
(`-EIO`) — `sys_mmap` returns the corresponding negative error code
while the committed mapping is still present in the address space: no
rollback occurs on the failure path. -/
theorem c4_no_rollback : ∀ (O : Oracles) (sp : AddrSpace)
    (addr length prot : Nat) (fd : Int) (v : Nat),
    O.findFree (align_down_4k ((addr + 0x100000) % W)) (align_up_4k length)
      sp.base sp.asize = some v →
    O.mapAllocOk v (align_up_4k length) (mmapProtToFlags prot) = true →
    (O.resolveFd fd = none →
      (sys_mmap O sp addr length prot fd).ret = -EBADF ∧
      (v, align_up_4k length, mmapProtToFlags prot) ∈
        (sys_mmap O sp addr length prot fd).space.committed) ∧
    (∀ f : FileLike, O.resolveFd fd = some f → f.readFails = true →
      (sys_mmap O sp addr length prot fd).ret = -EIO_errno ∧
      (v, align_up_4k length, mmapProtToFlags prot) ∈
        (sys_mmap O sp addr length prot fd).space.committed) ∧
    (∀ (f : FileLike) (buf : List Nat), O.resolveFd fd = some f →
      fileReadInto f length = some buf → O.writeOk v buf = false →
      (sys_mmap O sp addr length prot fd).ret = -EIO_errno ∧
      (v, align_up_4k length, mmapProtToFlags prot) ∈
        (sys_mmap O sp addr length prot fd).space.committed) := by
  intro O sp addr length prot fd v hv hma
  have hmem : (v, align_up_4k length, mmapProtToFlags prot) ∈
      (sys_mmap O sp addr length prot fd).space.committed := by
    have hhead := sys_mmap_committed_head O sp addr length prot fd v hv hma
    cases hcm : (sys_mmap O sp addr length prot fd).space.committed with
    | nil => rw [hcm] at hhead; simp at hhead
    | cons x xs =>
      rw [hcm] at hhead
      simp only [List.head?_cons, Option.some.injEq] at hhead
      rw [hhead]
      exact List.mem_cons_self _ _
  refine ⟨fun hfd => ⟨?_, hmem⟩, fun f hfd hrf => ⟨?_, hmem⟩,
    fun f buf hfd hread hw => ⟨?_, hmem⟩⟩
  · simp [sys_mmap, hv, hma, hfd]
  · simp [sys_mmap, hv, hma, hfd, fileReadInto, hrf]
  · simp [sys_mmap, hv, hma, hfd, hread, hw]

/-- C4 (witness): with a collaborator whose descriptor resolution fails
after a successful search and commit, `sys_mmap` returns `-EBADF` and
the mapping `(0x2000, 0x1000 bytes, rw-user)` is still committed. -/
theorem c4_no_rollback_witness :
    (sys_mmap oBadFd spA 0 5 3 3).ret = -EBADF ∧
    (0x2000, 0x1000, mmapProtToFlags 3) ∈
      (sys_mmap oBadFd spA 0 5 3 3).space.committed := by
  exact (c4_no_rollback oBadFd spA 0 5 3 3 0x2000 rfl rfl).1 rfl

/-- C2: the complete error-code mapping of `sys_mmap` (stages checked in
program order, under the collaborator contract that the free-area search
only yields addresses inside the user half of the address range): no
free area or a failing mapping commit give exactly `-ENOMEM`; an
unresolvable descriptor gives exactly `-EBADF`; a failing file read or
memory write gives exactly `-EIO`; full success returns the committed
address, which is non-negative; and every negative return value is one
of `-ENOMEM`, `-EBADF`, `-EIO`. -/
theorem c2_errno_mapping : ∀ (O : Oracles) (sp : AddrSpace)
    (addr length prot : Nat) (fd : Int),
    (∀ p q r s v, O.findFree p q r s = some v → v < W / 2) →
    (O.findFree (align_down_4k ((addr + 0x100000) % W)) (align_up_4k length)
        sp.base sp.asize = none →
      (sys_mmap O sp addr length prot fd).ret = -ENOMEM) ∧
    (∀ v, O.findFree (align_down_4k ((addr + 0x100000) % W))
        (align_up_4k length) sp.base sp.asize = some v →
      O.mapAllocOk v (align_up_4k length) (mmapProtToFlags prot) = false →
      (sys_mmap O sp addr length prot fd).ret = -ENOMEM) ∧
    (∀ v, O.findFree (align_down_4k ((addr + 0x100000) % W))
        (align_up_4k length) sp.base sp.asize = some v →
      O.mapAllocOk v (align_up_4k length) (mmapProtToFlags prot) = true →
      O.resolveFd fd = none →
      (sys_mmap O sp addr length prot fd).ret = -EBADF) ∧
    (∀ (v : Nat) (f : FileLike),
      O.findFree (align_down_4k ((addr + 0x100000) % W))
        (align_up_4k length) sp.base sp.asize = some v →
      O.mapAllocOk v (align_up_4k length) (mmapProtToFlags prot) = true →
      O.resolveFd fd = some f → f.readFails = true →
      (sys_mmap O sp addr length prot fd).ret = -EIO_errno) ∧
    (∀ (v : Nat) (f : FileLike) (buf : List Nat),
      O.findFree (align_down_4k ((addr + 0x100000) % W))
        (align_up_4k length) sp.base sp.asize = some v →
      O.mapAllocOk v (align_up_4k length) (mmapProtToFlags prot) = true →
      O.resolveFd fd = some f → fileReadInto f length = some buf →
      O.writeOk v buf = false →
      (sys_mmap O sp addr length prot fd).ret = -EIO_errno) ∧
    (∀ (v : Nat) (f : FileLike) (buf : List Nat),
      O.findFree (align_down_4k ((addr + 0x100000) % W))
        (align_up_4k length) sp.base sp.asize = some v →
      O.mapAllocOk v (align_up_4k length) (mmapProtToFlags prot) = true →
      O.resolveFd fd = some f → fileReadInto f length = some buf →
      O.writeOk v buf = true →
      (sys_mmap O sp addr length prot fd).ret = (v : Int) ∧
      0 ≤ (sys_mmap O sp addr length prot fd).ret) ∧
    ((sys_mmap O sp addr length prot fd).ret < 0 →
      (sys_mmap O sp addr length prot fd).ret = -ENOMEM ∨
      (sys_mmap O sp addr length prot fd).ret = -EBADF ∨
      (sys_mmap O sp addr length prot fd).ret = -EIO_errno) := by
  intro O sp addr length prot fd hcontract
  refine ⟨?_, ?_, ?_, ?_, ?_, ?_, ?_⟩
  · intro h0
    simp [sys_mmap, h0]
  · intro v hv hma
    simp [sys_mmap, hv, hma]
  · intro v hv hma hfd
    simp [sys_mmap, hv, hma, hfd]
  · intro v f hv hma hfd hrf
    simp [sys_mmap, hv, hma, hfd, fileReadInto, hrf]
  · intro v f buf hv hma hfd hread hw
    simp [sys_mmap, hv, hma, hfd, hread, hw]
  · intro v f buf hv hma hfd hread hw
    have hret : (sys_mmap O sp addr length prot fd).ret = toISize v := by
      simp [sys_mmap, hv, hma, hfd, hread, hw]
    rw [hret, toISize_of_lt (hcontract _ _ _ _ _ hv)]
    exact ⟨rfl, Int.ofNat_nonneg v⟩
  · intro hneg
    cases hv : O.findFree (align_down_4k ((addr + 0x100000) % W))
        (align_up_4k length) sp.base sp.asize with
    | none =>
      left
      simp [sys_mmap, hv]
    | some v =>
      cases hma : O.mapAllocOk v (align_up_4k length) (mmapProtToFlags prot) with
      | false =>
        left
        simp [sys_mmap, hv, hma]
      | true =>
        cases hfd : O.resolveFd fd with
        | none =>
          right; left
          simp [sys_mmap, hv, hma, hfd]
        | some f =>
          cases hread : fileReadInto f length with
          | none =>
            right; right
            simp [sys_mmap, hv, hma, hfd, hread]
          | some buf =>
            cases hw : O.writeOk v buf with
            | false =>
              right; right
              simp [sys_mmap, hv, hma, hfd, hread, hw]
            | true =>
              exfalso
              have hret : (sys_mmap O sp addr length prot fd).ret =
                  toISize v := by
                simp [sys_mmap, hv, hma, hfd, hread, hw]
              rw [hret, toISize_of_lt (hcontract _ _ _ _ _ hv)] at hneg
              exact absurd hneg (by omega)

/-- C2 (witness): the error mapping evaluated on concrete collaborators:
full success returns the non-negative address `0x2000`, a failing search
returns `-ENOMEM`, and a bad descriptor returns `-EBADF`. -/
theorem c2_errno_mapping_witness :
    ((sys_mmap oA spA 0 5 3 3).ret = (0x2000 : Int) ∧
      0 ≤ (sys_mmap oA spA 0 5 3 3).ret) ∧
    (sys_mmap oNoArea spA 0 5 3 3).ret = -ENOMEM ∧
    (sys_mmap oBadFd spA 0 5 3 3).ret = -EBADF := by
  have hA : ∀ p q r s v, oA.findFree p q r s = some v → v < W / 2 := by
    intro p q r s v hsome
    injection hsome with h
    rw [show v = 0x2000 from h.symm]
    decide
  have hN : ∀ p q r s v, oNoArea.findFree p q r s = some v → v < W / 2 := by
    intro p q r s v hsome
    exact absurd hsome (by simp [oNoArea, oA])
  have hB : ∀ p q r s v, oBadFd.findFree p q r s = some v → v < W / 2 := by
    intro p q r s v hsome
    injection hsome with h
    rw [show v = 0x2000 from h.symm]
    decide
  refine ⟨(c2_errno_mapping oA spA 0 5 3 3 hA).2.2.2.2.2.1 0x2000
      ⟨[7, 9], false⟩ [7, 9, 0, 0, 0] rfl rfl rfl rfl rfl,
    (c2_errno_mapping oNoArea spA 0 5 3 3 hN).1 rfl,
    (c2_errno_mapping oBadFd spA 0 5 3 3 hB).2.2.1 0x2000 rfl rfl rfl⟩

/-- C3: the claim as stated is false when the descriptor holds more bytes
than the requested length. Descriptor 3 holds the N = 2 bytes `[7, 9]`;
an mmap of length 1 succeeds at `0x2000` (all collaborators succeed),
but the read is capped at the 1-byte buffer, so byte 1 of the mapped
region is 0 while byte 1 of the descriptor is 9: the first N bytes of
the mapping do not equal the descriptor's first N bytes. -/
theorem c3_roundtrip_counterexample :
    oA.resolveFd 3 = some ⟨[7, 9], false⟩ ∧
    (sys_mmap oA spA 0 1 3 3).ret = 0x2000 ∧
    (sys_mmap oA spA 0 1 3 3).space.byteAt (0x2000 + 1) ≠
      ([7, 9] : List Nat).getD 1 0 := by
  have hres : sys_mmap oA spA 0 1 3 3 =
      ⟨toISize 0x2000, (spA.commit 0x2000 (align_up_4k 1)
        (mmapProtToFlags 3)).writeBytes 0x2000 [7]⟩ := rfl
  refine ⟨rfl, ?_, ?_⟩
  · rw [hres]
    decide
  · rw [hres]
    simp only [AddrSpace.byteAt, AddrSpace.writeBytes, AddrSpace.commit,
      lookupMem]
    rw [if_neg (by decide)]
    rw [if_pos ⟨by decide, by
      simp only [List.length_replicate]
      decide⟩]
    rw [show (0x2000 + 1 : Nat) - 0x2000 = 1 from by decide]
    rw [getD_replicate_zero]
    decide

/-- C3 (amended): for every mmap call whose descriptor resolves to a
readable file holding `N ≤ length` bytes, where the search finds a hole
`v` (page-aligned and inside the user half, per the collaborator
contract) and commit and write succeed: `sys_mmap` returns the
page-aligned address `v`, the first N bytes of the mapped region equal
the descriptor's first N bytes, and the rest of the page-rounded mapping
(the zero tail of the length-byte buffer included) is zero. -/
theorem c3_roundtrip_amended : ∀ (O : Oracles) (sp : AddrSpace)
    (addr length prot : Nat) (fd : Int) (f : FileLike) (v : Nat),
    O.findFree (align_down_4k ((addr + 0x100000) % W)) (align_up_4k length)
      sp.base sp.asize = some v →
    O.mapAllocOk v (align_up_4k length) (mmapProtToFlags prot) = true →
    O.resolveFd fd = some f →
    f.readFails = false →
    f.content.length ≤ length →
    length + 0xfff < W →
    O.writeOk v
      (f.content ++ List.replicate (length - f.content.length) 0) = true →
    v % PAGE_SIZE_4K = 0 → v < W / 2 →
    ((sys_mmap O sp addr length prot fd).ret = (v : Int) ∧
      v % PAGE_SIZE_4K = 0) ∧
    (∀ i, i < f.content.length →
      (sys_mmap O sp addr length prot fd).space.byteAt (v + i) =
        f.content.getD i 0) ∧
    (∀ i, f.content.length ≤ i → i < align_up_4k length →
      (sys_mmap O sp addr length prot fd).space.byteAt (v + i) = 0) := by
  intro O sp addr length prot fd f v hv hma hfd hrf hN hlen hw hal hv2
  have hread : fileReadInto f length =
      some (f.content ++ List.replicate (length - f.content.length) 0) := by
    simp [fileReadInto, hrf, List.take_of_length_le hN]
  have hres : sys_mmap O sp addr length prot fd =
      ⟨toISize v, (sp.commit v (align_up_4k length)
        (mmapProtToFlags prot)).writeBytes v
        (f.content ++ List.replicate (length - f.content.length) 0)⟩ := by
    simp [sys_mmap, hv, hma, hfd, hread, hw]
  have hblen : (f.content ++
      List.replicate (length - f.content.length) 0).length = length := by
    simp only [List.length_append, List.length_replicate]
    omega
  have haul : length ≤ align_up_4k length := le_align_up_4k hlen
  refine ⟨⟨?_, hal⟩, ?_, ?_⟩
  · rw [hres]
    exact toISize_of_lt hv2
  · intro i hi
    rw [hres]
    simp only [AddrSpace.byteAt, AddrSpace.writeBytes, AddrSpace.commit,
      lookupMem]
    rw [if_pos ⟨Nat.le_add_right v i, by rw [hblen]; omega⟩]
    rw [show v + i - v = i from by omega]
    exact List.getD_append _ _ _ _ hi
  · intro i h1 h2
    rw [hres]
    simp only [AddrSpace.byteAt, AddrSpace.writeBytes, AddrSpace.commit,
      lookupMem]
    by_cases hil : i < length
    · rw [if_pos ⟨Nat.le_add_right v i, by rw [hblen]; omega⟩]
      rw [show v + i - v = i from by omega]
      rw [List.getD_append_right _ _ _ _ h1]
      exact getD_replicate_zero _ _
    · rw [if_neg (by rw [hblen]; omega)]
      rw [if_pos ⟨Nat.le_add_right v i,
        by simp only [List.length_replicate]; omega⟩]
      rw [show v + i - v = i from by omega]
      exact getD_replicate_zero _ _

/-- C3 (witness): the amended round trip on concrete collaborators —
descriptor 3 holds `[7, 9]`, mmap of length 5 succeeds at the
page-aligned address `0x2000`, bytes 0 and 1 of the mapping are 7 and 9,
and byte 2 (past the file content, inside the buffer) is 0. -/
theorem c3_roundtrip_witness :
    (sys_mmap oA spA 0 5 3 3).ret = (0x2000 : Int) ∧
    (sys_mmap oA spA 0 5 3 3).space.byteAt (0x2000 + 0) = 7 ∧
    (sys_mmap oA spA 0 5 3 3).space.byteAt (0x2000 + 1) = 9 ∧
    (sys_mmap oA spA 0 5 3 3).space.byteAt (0x2000 + 2) = 0 := by
  have h := c3_roundtrip_amended oA spA 0 5 3 3 ⟨[7, 9], false⟩ 0x2000
    rfl rfl rfl rfl (by decide) (by decide) rfl (by decide) (by decide)
  refine ⟨h.1.1, ?_, ?_, h.2.2 2 (by decide) (by decide)⟩
  · have h0 := h.2.1 0 (by decide)
    exact h0.trans (by decide)
  · have h1 := h.2.1 1 (by decide)
    exact h1.trans (by decide)
